import Mathlib

/-!
Verification development for the Harvard Art Explorer repository
(single source file src/app.py).

The embedding models the three program units the claims are about:

* `HarvardArtMuseumDB.insert_artifacts` (src/app.py lines 96-166):
  the SQLite database is modelled as a `DB` value holding the three
  tables as lists of rows.  SQL semantics relevant here:
  - `artifact_metadata` has `id INTEGER PRIMARY KEY`; the statement
    `INSERT OR REPLACE` deletes any row with the same id and inserts
    the new row.  Inserting a SQL NULL id (a record whose dict lacks
    the key, so `artifact.get(id_key)` is None) makes SQLite
    auto-assign a rowid: one more than the largest id in the table,
    or 1 when the table is empty.  This is `nextAutoId`.
  - `artifact_media` and `artifact_colors` have no PRIMARY KEY and no
    UNIQUE constraint (the FOREIGN KEY clauses are not enforced:
    SQLite leaves foreign_keys off by default, and REPLACE conflict
    resolution only fires on uniqueness/not-null constraints).  Hence
    the `INSERT OR REPLACE` on `artifact_media` and the plain `INSERT`
    on `artifact_colors` both simply append a row.
  - The `except sqlite3.Error` handler in the loop is dead for the
    well-typed inputs modelled here: no enforceable constraint can be
    violated, so every iteration of the loop runs to the
    `inserted_count += 1` line.  `insertLoop` therefore threads the
    counter unconditionally, mirroring the executed path.
  Python `dict.get(k)` is modelled by `Option` fields of
  `RawArtifact`; `dict.get(k, 0)` by `Option.getD _ 0`.  The
  truthiness test `if artifact.get(colors_key):` is true exactly for
  a present, non-empty list, which `colorRowsOf` mirrors.

* `HarvardArtMuseumDB.execute_query` (lines 168-178): the behaviour
  of `pd.read_sql_query` on the underlying engine is abstracted as an
  `Except String Table` input; the wrapper either returns the engine
  table with no error message, or catches the exception, emits the
  message through the `st.error` channel (collected in
  `QueryResult.errors`) and returns the empty DataFrame (`table = []`).
  The Lean function is total: no exception escapes the wrapper.

* `HarvardArtAPI.fetch_artifacts` (lines 185-233): the remote catalog
  is an oracle `Nat → PageResponse` mapping a page number to what the
  HTTP layer produced: a 200 response with a parsed `records` list
  (`ok`, where `ok []` also covers an absent records field), a non-200
  status (`httpError`), or an exception while requesting/parsing JSON
  (`malformed`).  The loop is modelled with explicit fuel `limit + 1`,
  which is never exhausted because every continuing iteration strictly
  grows the accumulator while the loop guard requires its length to be
  below `limit`.  The second component of the result counts the
  `requests.get` calls made.  Progress-bar updates and `time.sleep`
  have no effect on the data and are dropped.
-/

/-- One row of the `artifact_metadata` table.  `id` is the INTEGER
PRIMARY KEY, hence never NULL (SQLite auto-assigns on NULL insert);
every other column is nullable. -/
structure MetaRow where
  id : Int
  title : Option String
  culture : Option String
  period : Option String
  century : Option String
  medium : Option String
  dimensions : Option String
  description : Option String
  department : Option String
  classification : Option String
  accessionyear : Option Int
  accessionmethod : Option String
deriving DecidableEq

/-- One row of the `artifact_media` table.  `objectid` comes from
`artifact.get` on the id key and may be NULL; the six counters are
always written with default 0, hence non-null. -/
structure MediaRow where
  objectid : Option Int
  imagecount : Int
  mediacount : Int
  colorcount : Int
  rank : Int
  datebegin : Int
  dateend : Int
deriving DecidableEq

/-- One row of the `artifact_colors` table.  All attribute columns are
written from `color.get` and may be NULL.  `percent` is a REAL column;
no arithmetic is done on it, so a rational stands in for the float. -/
structure ColorRow where
  objectid : Option Int
  color : Option String
  spectrum : Option String
  hue : Option String
  percent : Option Rat
  css3 : Option String
deriving DecidableEq

/-- One entry of the `colors` list of a raw record. -/
structure RawColor where
  color : Option String
  spectrum : Option String
  hue : Option String
  percent : Option Rat
  css3 : Option String
deriving DecidableEq

/-- A raw artifact record as handed to `insert_artifacts`: a Python
dict whose lookups the code performs with `get`.  A missing key is
`none`. -/
structure RawArtifact where
  id : Option Int
  title : Option String
  culture : Option String
  period : Option String
  century : Option String
  medium : Option String
  dimensions : Option String
  description : Option String
  department : Option String
  classification : Option String
  accessionyear : Option Int
  accessionmethod : Option String
  imagecount : Option Int
  mediacount : Option Int
  colorcount : Option Int
  rank : Option Int
  datebegin : Option Int
  dateend : Option Int
  colors : Option (List RawColor)
deriving DecidableEq

/-- The database state: the three tables created by `create_tables`,
each as a list of rows. -/
structure DB where
  artifact_metadata : List MetaRow
  artifact_media : List MediaRow
  artifact_colors : List ColorRow
deriving DecidableEq

/-- The state right after `create_tables` on a fresh database file:
three empty tables. -/
def emptyDB : DB :=
  { artifact_metadata := [], artifact_media := [], artifact_colors := [] }

/-- SQLite rowid auto-assignment for an INTEGER PRIMARY KEY given
NULL: one more than the largest id currently in the table, 1 when the
table is empty. -/
def nextAutoId (rows : List MetaRow) : Int :=
  match rows with
  | [] => 1
  | r :: rest => (rest.foldl (fun m q => max m q.id) r.id) + 1

/-- The primary-key value actually stored for a record: the value of
`artifact.get` on the id key when present, otherwise the auto-assigned
rowid. -/
def effectiveId (db : DB) (a : RawArtifact) : Int :=
  match a.id with
  | some x => x
  | none => nextAutoId db.artifact_metadata

/-- The `artifact_metadata` row built from a record, with primary key
`x` (the effective id). -/
def metaRowOf (x : Int) (a : RawArtifact) : MetaRow :=
  { id := x
    title := a.title
    culture := a.culture
    period := a.period
    century := a.century
    medium := a.medium
    dimensions := a.dimensions
    description := a.description
    department := a.department
    classification := a.classification
    accessionyear := a.accessionyear
    accessionmethod := a.accessionmethod }

/-- `INSERT OR REPLACE` on `artifact_metadata`: any row with the same
primary key is deleted, then the new row is inserted. -/
def insertOrReplaceMeta (rows : List MetaRow) (r : MetaRow) : List MetaRow :=
  rows.filter (fun q => decide (q.id ≠ r.id)) ++ [r]

/-- The `artifact_media` row built from a record: `artifact.get` with
default 0 for the six counters, `artifact.get` (possibly None) for the
object id. -/
def mediaRowOf (a : RawArtifact) : MediaRow :=
  { objectid := a.id
    imagecount := a.imagecount.getD 0
    mediacount := a.mediacount.getD 0
    colorcount := a.colorcount.getD 0
    rank := a.rank.getD 0
    datebegin := a.datebegin.getD 0
    dateend := a.dateend.getD 0 }

/-- One `artifact_colors` row built from a colors-list entry. -/
def colorRowOf (aid : Option Int) (c : RawColor) : ColorRow :=
  { objectid := aid
    color := c.color
    spectrum := c.spectrum
    hue := c.hue
    percent := c.percent
    css3 := c.css3 }

/-- The color rows inserted for a record.  The guard
`if artifact.get(colors_key):` is true exactly when the key is present
with a non-empty list; each entry is then inserted in order. -/
def colorRowsOf (a : RawArtifact) : List ColorRow :=
  match a.colors with
  | some (c :: cs) => (c :: cs).map (colorRowOf a.id)
  | _ => []

/-- The loop body of `insert_artifacts` for one record: replace the
metadata row, append a media row (the OR REPLACE is inert: no unique
constraint on `artifact_media`), append the color rows (plain INSERT,
no clearing of prior rows). -/
def insertOne (db : DB) (a : RawArtifact) : DB :=
  { artifact_metadata :=
      insertOrReplaceMeta db.artifact_metadata (metaRowOf (effectiveId db a) a)
    artifact_media := db.artifact_media ++ [mediaRowOf a]
    artifact_colors := db.artifact_colors ++ colorRowsOf a }

/-- The `for artifact in artifacts_data` loop, threading the state and
the `inserted_count` counter. -/
def insertLoop : DB × Nat → List RawArtifact → DB × Nat
  | s, [] => s
  | s, a :: rest => insertLoop (insertOne s.1 a, s.2 + 1) rest

/-- `HarvardArtMuseumDB.insert_artifacts`: runs the loop from the
given state with counter 0 and returns the new state together with the
returned `inserted_count`. -/
def insert_artifacts (db : DB) (batch : List RawArtifact) : DB × Nat :=
  insertLoop (db, 0) batch

/-- A tabular query result (rows of cells), standing in for a pandas
DataFrame; `[]` is the empty DataFrame. -/
def Table : Type := List (List String)

instance : DecidableEq Table := by
  unfold Table
  infer_instance

/-- What `execute_query` hands back: the messages written through the
`st.error` channel, and the DataFrame returned to the caller. -/
structure QueryResult where
  errors : List String
  table : Table
deriving DecidableEq

/-- `HarvardArtMuseumDB.execute_query`: the outcome of
`pd.read_sql_query` on the engine is the `Except` input.  On success
the DataFrame is returned unchanged (possibly empty); on failure the
exception is caught, its message is shown via `st.error` and the empty
DataFrame is returned.  The function is total: no exception escapes. -/
def execute_query (engine : Except String Table) : QueryResult :=
  match engine with
  | Except.ok rows => { errors := [], table := rows }
  | Except.error e => { errors := ["Query error: " ++ e], table := [] }

/-- What one page request against the remote catalog produced. -/
inductive PageResponse where
  | ok (records : List RawArtifact)
  | httpError (code : Nat)
  | malformed
deriving DecidableEq

/-- Responses on which the Python loop executes `break` after the
request: an empty or absent records list, a non-200 status, or an
exception while requesting or parsing. -/
def isTerminal : PageResponse → Prop
  | PageResponse.ok [] => True
  | PageResponse.ok (_ :: _) => False
  | PageResponse.httpError _ => True
  | PageResponse.malformed => True

/-- The `while len(all_artifacts) < limit` loop of `fetch_artifacts`.
Arguments: fuel, accumulator, next page number, requests made so far.
Returns the accumulator and the total number of page requests. -/
def fetchLoop (catalog : Nat → PageResponse) (limit : Nat) :
    Nat → List RawArtifact → Nat → Nat → List RawArtifact × Nat
  | 0, acc, _, reqs => (acc, reqs)
  | fuel + 1, acc, page, reqs =>
    if limit ≤ acc.length then (acc, reqs)
    else
      match catalog page with
      | PageResponse.ok [] => (acc, reqs + 1)
      | PageResponse.ok (r :: rs) =>
          fetchLoop catalog limit fuel (acc ++ r :: rs) (page + 1) (reqs + 1)
      | PageResponse.httpError _ => (acc, reqs + 1)
      | PageResponse.malformed => (acc, reqs + 1)

/-- `HarvardArtAPI.fetch_artifacts`: start at page 1 with an empty
accumulator and return `all_artifacts[:limit]` together with the
number of page requests made.  Fuel `limit + 1` is never exhausted:
each continuing iteration grows the accumulator by at least one while
the guard keeps its length below `limit`. -/
def fetch_artifacts (catalog : Nat → PageResponse) (limit : Nat) :
    List RawArtifact × Nat :=
  let out := fetchLoop catalog limit (limit + 1) [] 1 0
  (out.1.take limit, out.2)

/-- The records of page `i` as seen by the accumulator (empty unless
the response was `ok`). -/
def pageRecords (catalog : Nat → PageResponse) (i : Nat) : List RawArtifact :=
  match catalog i with
  | PageResponse.ok rs => rs
  | _ => []

/-- Concatenated records of the `d` pages starting at page `p`. -/
def accBetween (catalog : Nat → PageResponse) : Nat → Nat → List RawArtifact
  | _, 0 => []
  | p, d + 1 => pageRecords catalog p ++ accBetween catalog (p + 1) d

/-- Rows of `artifact_metadata` carrying primary key `x`. -/
def metaRowsFor (db : DB) (x : Int) : List MetaRow :=
  db.artifact_metadata.filter (fun m => decide (m.id = x))

/-- Each primary key occurs in at most one metadata row. -/
def uniqueIds (db : DB) : Prop :=
  ∀ x : Int, (metaRowsFor db x).length ≤ 1

/-- The last record of the batch whose id key holds `x` (the one whose
write wins). -/
def lastWithId : List RawArtifact → Int → Option RawArtifact
  | [], _ => none
  | a :: rest, x =>
    match lastWithId rest x with
    | some b => some b
    | none => if a.id = some x then some a else none

/-- Referential completeness as the spec states it: every color row
points at the id of some metadata row. -/
def refComplete (db : DB) : Prop :=
  ∀ c ∈ db.artifact_colors, ∃ m ∈ db.artifact_metadata, some m.id = c.objectid

/-- Referential completeness restricted to color rows with a non-null
object id. -/
def refCompleteNN (db : DB) : Prop :=
  ∀ c ∈ db.artifact_colors, ∀ x : Int, c.objectid = some x →
    ∃ m ∈ db.artifact_metadata, m.id = x

/-- A minimal record carrying only an id. -/
def mkArt (i : Int) : RawArtifact :=
  { id := some i
    title := none, culture := none, period := none, century := none
    medium := none, dimensions := none, description := none
    department := none, classification := none
    accessionyear := none, accessionmethod := none
    imagecount := none, mediacount := none, colorcount := none
    rank := none, datebegin := none, dateend := none
    colors := none }

/-- A record with no id key at all. -/
def artNoId : RawArtifact :=
  { mkArt 0 with id := none }

/-- A sample color entry. -/
def colorRed : RawColor :=
  { color := some "Red", spectrum := some "#ff0000", hue := some "Red"
    percent := some (1 / 2 : Rat), css3 := some "red" }

/-- A record with an id and one color entry. -/
def artWithColor : RawArtifact :=
  { mkArt 1 with colors := some [colorRed] }

/-- A record with no id key but with a color entry. -/
def artNoIdWithColor : RawArtifact :=
  { mkArt 0 with id := none, colors := some [colorRed] }

/-- A sample record used to populate simulated catalog pages. -/
def sampleArt : RawArtifact :=
  { mkArt 1000 with title := some "Untitled" }

/-- A record with id `i` and the given title. -/
def mkTitled (i : Int) (t : String) : RawArtifact :=
  { mkArt i with title := some t }

/-- The ten-record batch of the partial-failure scenario: nine records
with ids 1..9 and one record with no id. -/
def batch10 : List RawArtifact :=
  [mkArt 1, mkArt 2, mkArt 3, mkArt 4, mkArt 5,
   mkArt 6, mkArt 7, mkArt 8, mkArt 9, artNoId]

/-- A simulated catalog: two full pages of 100 records, a short third
page of 50 records, and empty pages from the fourth request on. -/
def catalogShort : Nat → PageResponse := fun i =>
  if i ≤ 2 then PageResponse.ok (List.replicate 100 sampleArt)
  else if i = 3 then PageResponse.ok (List.replicate 50 sampleArt)
  else PageResponse.ok []

/-- A simulated catalog whose second request fails with HTTP 500. -/
def errCatalog : Nat → PageResponse := fun i =>
  if i = 1 then PageResponse.ok [sampleArt] else PageResponse.httpError 500

instance (db : DB) : Decidable (refComplete db) := by
  unfold refComplete
  infer_instance

/-- The state component of the insertion loop is the left fold of the
per-record step. -/
theorem insertLoop_fst (batch : List RawArtifact) :
    ∀ db n, (insertLoop (db, n) batch).1 = batch.foldl insertOne db := by
  induction batch with
  | nil => intro db n; rfl
  | cons a rest ih =>
      intro db n
      simpa [insertLoop] using ih (insertOne db a) (n + 1)

/-- The counter component of the insertion loop counts every record:
the sqlite error branch is dead (see the header), so each iteration
increments. -/
theorem insertLoop_snd (batch : List RawArtifact) :
    ∀ db n, (insertLoop (db, n) batch).2 = n + batch.length := by
  induction batch with
  | nil => intro db n; simp [insertLoop]
  | cons a rest ih =>
      intro db n
      have := ih (insertOne db a) (n + 1)
      simp only [insertLoop, this, List.length_cons]
      omega

/-- C1: the claim asserts that a second insertion of the same batch
leaves `artifact_colors` with the same row count as after one
insertion.  The code appends color rows with a plain INSERT and never
clears the prior rows of the object, so re-inserting the one-record
batch `[artWithColor]` doubles the color rows (2 after the second call
instead of 1), while the metadata table does keep exactly one row for
the id.  This evaluates the embedded code at the failing input. -/
theorem insert_artifacts_duplicates_colors :
    (insert_artifacts emptyDB [artWithColor]).1.artifact_colors.length = 1 ∧
    (insert_artifacts (insert_artifacts emptyDB [artWithColor]).1
        [artWithColor]).1.artifact_colors.length = 2 ∧
    (insert_artifacts (insert_artifacts emptyDB [artWithColor]).1
        [artWithColor]).1.artifact_metadata.length = 1 :=
  ⟨rfl, rfl, rfl⟩

/-- C2: the claim asserts at most one `artifact_media` row per object
id, with re-insertion replacing the row.  The table has no PRIMARY KEY
or UNIQUE constraint, so the INSERT OR REPLACE statement never finds a
conflict and simply appends: inserting the record with id 1 twice
leaves two identical media rows for objectid 1.  This evaluates the
embedded code at the failing input. -/
theorem insert_artifacts_duplicates_media :
    (insert_artifacts (insert_artifacts emptyDB [mkArt 1]).1
        [mkArt 1]).1.artifact_media =
      [mediaRowOf (mkArt 1), mediaRowOf (mkArt 1)] ∧
    (mediaRowOf (mkArt 1)).objectid = some 1 :=
  ⟨rfl, rfl⟩

/-- C4 counterexample: on the batch of 10 records of which exactly one
lacks the id key, `insert_artifacts` reports 10 successful inserts,
not 9 with 1 failure: the identifier-less record is not skipped — it
is stored under an auto-assigned primary key (here 10), so the
metadata table also ends with 10 rows. -/
theorem insert_batch10_counts_all_ten :
    (insert_artifacts emptyDB batch10).2 = 10 ∧
    (insert_artifacts emptyDB batch10).1.artifact_metadata.length = 10 :=
  ⟨rfl, rfl⟩

set_option maxRecDepth 20000 in
/-- C5 counterexample: with the simulated catalog serving 100, 100,
then 50 records (a non-empty short third page, target 2500 not yet
reached), the fetch does not stop after 3 page requests as claimed: it
performs a 4th request (which returns the empty page) and only then
returns the 250 accumulated records. -/
theorem fetch_short_page_makes_fourth_request :
    (fetch_artifacts catalogShort 2500).2 = 4 ∧
    (fetch_artifacts catalogShort 2500).1.length = 250 :=
  ⟨rfl, rfl⟩

/-- C9 counterexample: inserting a record whose optional textual
fields are all absent stores SQL NULL (`none`) in every such column —
not an explicit missing-value marker as the claim states.  The whole
persisted row is computed here. -/
theorem textual_fields_stored_null :
    (insert_artifacts emptyDB [mkArt 7]).1.artifact_metadata =
      [{ id := 7, title := none, culture := none, period := none,
         century := none, medium := none, dimensions := none,
         description := none, department := none, classification := none,
         accessionyear := none, accessionmethod := none }] :=
  rfl

/-- C3 counterexample: referential completeness holds in the empty
database, yet inserting the single record that lacks an id key but
carries a color entry orphans the color row: the color row is stored
with NULL objectid while the metadata row receives auto-assigned id 1,
so no metadata id matches. -/
theorem refComplete_violated_for_missing_id :
    refComplete emptyDB ∧
    ¬ refComplete (insert_artifacts emptyDB [artNoIdWithColor]).1 :=
  ⟨by decide, by decide⟩

/-- REPLACE on the metadata table, restricted to the rows carrying a
given primary key: the key of the new row now maps to exactly that
row, every other key keeps its rows. -/
theorem filter_insertOrReplace (rows : List MetaRow) (r : MetaRow) (x : Int) :
    (insertOrReplaceMeta rows r).filter (fun m => decide (m.id = x)) =
      if r.id = x then [r] else rows.filter (fun m => decide (m.id = x)) := by
  unfold insertOrReplaceMeta
  rw [List.filter_append]
  by_cases h : r.id = x
  · rw [if_pos h]
    have h1 : (rows.filter fun q => decide (q.id ≠ r.id)).filter
        (fun m => decide (m.id = x)) = [] := by
      rw [List.filter_eq_nil_iff]
      intro m hm
      have h2 := (List.mem_filter.mp hm).2
      simp only [decide_eq_true_eq] at h2 ⊢
      exact fun hx => h2 (by rw [hx, h])
    rw [h1]
    simp [h]
  · rw [if_neg h]
    have h2 : (List.filter (fun m => decide (m.id = x)) [r]) = [] := by
      simp [h]
    rw [h2, List.append_nil, List.filter_comm, List.filter_eq_self]
    intro m hm
    have h3 := (List.mem_filter.mp hm).2
    simp only [decide_eq_true_eq] at h3 ⊢
    rw [h3]
    exact fun hx => h hx.symm

/-- Effect of one loop iteration on the rows carrying key `x`. -/
theorem metaRowsFor_insertOne (db : DB) (a : RawArtifact) (x : Int) :
    metaRowsFor (insertOne db a) x =
      if effectiveId db a = x then [metaRowOf (effectiveId db a) a]
      else metaRowsFor db x := by
  have h := filter_insertOrReplace db.artifact_metadata
    (metaRowOf (effectiveId db a) a) x
  simpa [metaRowsFor, insertOne, metaRowOf] using h

/-- One loop iteration preserves primary-key uniqueness. -/
theorem uniqueIds_insertOne (db : DB) (a : RawArtifact)
    (hu : uniqueIds db) : uniqueIds (insertOne db a) := by
  intro x
  rw [metaRowsFor_insertOne]
  by_cases h : effectiveId db a = x
  · rw [if_pos h]; exact le_refl 1
  · rw [if_neg h]; exact hu x

/-- C7: last-write-wins metadata replacement.  Starting from any state
whose metadata table has unique primary keys, after `insert_artifacts`
on a batch whose records all carry an id the table still has at most
one row per id; every id written by the batch maps to exactly the row
built from the last batch record carrying that id, and every other id
keeps its prior rows. -/
theorem metadata_last_write_wins (batch : List RawArtifact) :
    ∀ db : DB, uniqueIds db → (∀ a ∈ batch, ∃ x : Int, a.id = some x) →
      uniqueIds (insert_artifacts db batch).1 ∧
      (∀ (x : Int) (a : RawArtifact), lastWithId batch x = some a →
        metaRowsFor (insert_artifacts db batch).1 x = [metaRowOf x a]) ∧
      (∀ x : Int, lastWithId batch x = none →
        metaRowsFor (insert_artifacts db batch).1 x = metaRowsFor db x) := by
  have hfold : ∀ (bs : List RawArtifact) (db : DB),
      (insert_artifacts db bs).1 = bs.foldl insertOne db := by
    intro bs db
    simpa [insert_artifacts] using insertLoop_fst bs db 0
  induction batch with
  | nil =>
      intro db hu _
      refine ⟨by simpa [hfold] using hu, ?_, ?_⟩
      · intro x a hfind
        simp [lastWithId] at hfind
      · intro x _
        simp [hfold]
  | cons a rest ih =>
      intro db hu hall
      obtain ⟨xa, hxa⟩ := hall a (List.mem_cons_self a rest)
      have hu' : uniqueIds (insertOne db a) := uniqueIds_insertOne db a hu
      have hall' : ∀ b ∈ rest, ∃ x : Int, b.id = some x :=
        fun b hb => hall b (List.mem_cons_of_mem a hb)
      have IH := ih (insertOne db a) hu' hall'
      have hstep : (insert_artifacts db (a :: rest)).1 =
          (insert_artifacts (insertOne db a) rest).1 := by
        rw [hfold, hfold, List.foldl_cons]
      have heff : effectiveId db a = xa := by
        simp [effectiveId, hxa]
      refine ⟨by rw [hstep]; exact IH.1, ?_, ?_⟩
      · intro x b hfind
        rw [hstep]
        simp only [lastWithId] at hfind
        cases hrest : lastWithId rest x with
        | some c =>
            rw [hrest] at hfind
            simp at hfind
            rw [← hfind]
            exact IH.2.1 x c hrest
        | none =>
            rw [hrest] at hfind
            simp at hfind
            obtain ⟨hax, rfl⟩ := hfind
            have hx : xa = x := by
              rw [hxa] at hax
              exact Option.some.inj hax
            have heq : effectiveId db a = x := by rw [heff, hx]
            rw [IH.2.2 x hrest, metaRowsFor_insertOne, if_pos heq, heq]
      · intro x hnone
        rw [hstep]
        simp only [lastWithId] at hnone
        cases hrest : lastWithId rest x with
        | some c =>
            rw [hrest] at hnone
            simp at hnone
        | none =>
            rw [hrest] at hnone
            simp at hnone
            rw [IH.2.2 x hrest, metaRowsFor_insertOne, if_neg]
            rw [heff]
            intro hx
            exact hnone (by rw [hxa, hx])

/-- C7 witness: inserting two records with id 1, first titled
"first" then "second", into the empty database leaves exactly the row
built from the second record under key 1, and keys stay unique. -/
theorem metadata_last_write_wins_witness :
    uniqueIds (insert_artifacts emptyDB [mkTitled 1 "first", mkTitled 1 "second"]).1 ∧
    metaRowsFor (insert_artifacts emptyDB [mkTitled 1 "first", mkTitled 1 "second"]).1 1 =
      [metaRowOf 1 (mkTitled 1 "second")] := by
  have hu : uniqueIds emptyDB := by
    intro x
    simp [metaRowsFor, emptyDB]
  have h := metadata_last_write_wins [mkTitled 1 "first", mkTitled 1 "second"]
    emptyDB hu
    (by
      intro b hb
      simp only [List.mem_cons, List.mem_singleton] at hb
      rcases hb with rfl | rfl | h
      · exact ⟨1, rfl⟩
      · exact ⟨1, rfl⟩
      · cases h)
  exact ⟨h.1, h.2.1 1 (mkTitled 1 "second") rfl⟩

/-- Every color row appended for a record carries the records id
value (possibly NULL) as objectid. -/
theorem mem_colorRowsOf (a : RawArtifact) (c : ColorRow)
    (h : c ∈ colorRowsOf a) : c.objectid = a.id := by
  unfold colorRowsOf at h
  cases ha : a.colors with
  | none => rw [ha] at h; simp at h
  | some l =>
      cases l with
      | nil => rw [ha] at h; simp at h
      | cons c0 cs =>
          rw [ha] at h
          simp only [List.mem_map] at h
          obtain ⟨d, _, hd⟩ := h
          rw [← hd]
          rfl

/-- A primary key present in the metadata table stays present across
one loop iteration (REPLACE re-inserts the same key, so keys are never
lost). -/
theorem id_present_insertOne (db : DB) (a : RawArtifact) (x : Int)
    (h : ∃ m ∈ db.artifact_metadata, m.id = x) :
    ∃ m ∈ (insertOne db a).artifact_metadata, m.id = x := by
  obtain ⟨m, hm, hmx⟩ := h
  by_cases he : effectiveId db a = x
  · refine ⟨metaRowOf (effectiveId db a) a, ?_, he⟩
    simp [insertOne, insertOrReplaceMeta]
  · refine ⟨m, ?_, hmx⟩
    simp only [insertOne, insertOrReplaceMeta, List.mem_append]
    left
    rw [List.mem_filter]
    refine ⟨hm, ?_⟩
    simp only [decide_eq_true_eq, metaRowOf]
    rw [hmx]
    exact fun hx => he hx.symm

/-- One loop iteration preserves referential completeness of the
non-null color rows: old rows keep their witness, and the new color
rows of a record with an id point at the metadata row just written
under that id. -/
theorem refCompleteNN_insertOne (db : DB) (a : RawArtifact)
    (h : refCompleteNN db) : refCompleteNN (insertOne db a) := by
  intro c hc x hcx
  have hc2 : c ∈ db.artifact_colors ++ colorRowsOf a := hc
  rcases List.mem_append.mp hc2 with hold | hnew
  · exact id_present_insertOne db a x (h c hold x hcx)
  · have hobj : c.objectid = a.id := mem_colorRowsOf a c hnew
    have hax : a.id = some x := by rw [← hobj, hcx]
    have he : effectiveId db a = x := by simp [effectiveId, hax]
    refine ⟨metaRowOf (effectiveId db a) a, ?_, he⟩
    simp [insertOne, insertOrReplaceMeta]

/-- C3 (amended): after any `insert_artifacts` call from a state in
which every color row with a non-null objectid matches some metadata
id, the same holds again: color rows of records that carry an id are
never orphaned.  (Color rows of records without an id are stored with
NULL objectid and match no metadata row — see the counterexample.) -/
theorem insert_artifacts_refCompleteNN (batch : List RawArtifact) :
    ∀ db : DB, refCompleteNN db →
      refCompleteNN (insert_artifacts db batch).1 := by
  have key : ∀ (bs : List RawArtifact) (db : DB), refCompleteNN db →
      refCompleteNN (bs.foldl insertOne db) := by
    intro bs
    induction bs with
    | nil => intro db h; exact h
    | cons a rest ih =>
        intro db h
        rw [List.foldl_cons]
        exact ih (insertOne db a) (refCompleteNN_insertOne db a h)
  intro db h
  have h1 : (insert_artifacts db batch).1 = batch.foldl insertOne db := by
    simpa [insert_artifacts] using insertLoop_fst batch db 0
  rw [h1]
  exact key batch db h

/-- C3 witness: the invariant holds of the empty database and is
carried through insertion of a concrete two-record batch with color
entries. -/
theorem insert_artifacts_refCompleteNN_witness :
    refCompleteNN (insert_artifacts emptyDB [artWithColor, mkArt 2]).1 := by
  have h0 : refCompleteNN emptyDB := by
    intro c hc
    exact absurd hc (List.not_mem_nil c)
  exact insert_artifacts_refCompleteNN [artWithColor, mkArt 2] emptyDB h0

/-- Adding records only appends to the media table: its length grows
by exactly the batch length. -/
theorem media_length_foldl (bs : List RawArtifact) :
    ∀ db : DB, ((bs.foldl insertOne db).artifact_media).length =
      db.artifact_media.length + bs.length := by
  induction bs with
  | nil => intro db; simp
  | cons a rest ih =>
      intro db
      rw [List.foldl_cons, ih (insertOne db a)]
      simp only [insertOne, List.length_append, List.length_cons]
      simp
      omega

/-- C4 (amended): a batch of 10 records of which exactly one lacks the
id key yields 10 successful inserts and no reported failure: the
identifier-less record is stored like the others (one media row per
record), not skipped.  The only failure channel of the code is the
sqlite error handler, which a missing id never triggers. -/
theorem insert_artifacts_no_skip (db : DB) (batch : List RawArtifact)
    (h10 : batch.length = 10)
    (_hone : (batch.filter (fun a => decide (a.id = none))).length = 1) :
    (insert_artifacts db batch).2 = 10 ∧
    (insert_artifacts db batch).1.artifact_media.length =
      db.artifact_media.length + 10 := by
  constructor
  · have h := insertLoop_snd batch db 0
    simp only [insert_artifacts, h, h10]
  · have h1 : (insert_artifacts db batch).1 = batch.foldl insertOne db := by
      simpa [insert_artifacts] using insertLoop_fst batch db 0
    rw [h1, media_length_foldl batch db, h10]

/-- C4 amended-claim witness at the concrete ten-record batch. -/
theorem insert_artifacts_no_skip_witness :
    (insert_artifacts emptyDB batch10).2 = 10 ∧
    (insert_artifacts emptyDB batch10).1.artifact_media.length =
      emptyDB.artifact_media.length + 10 :=
  insert_artifacts_no_skip emptyDB batch10 rfl rfl

/-- C9 (amended): for a record carrying id `x` whose optional textual
fields are all absent, the persisted metadata row for `x` stores SQL
NULL in each of those columns; the row itself is inserted (fields are
not skipped), but no explicit non-null marker is substituted. -/
theorem textual_fields_null_row (db : DB) (a : RawArtifact) (x : Int)
    (hid : a.id = some x)
    (ht : a.title = none) (hcu : a.culture = none) (hpe : a.period = none)
    (hce : a.century = none) (hme : a.medium = none)
    (hdi : a.dimensions = none) (hde : a.description = none)
    (hdp : a.department = none) (hcl : a.classification = none)
    (ham : a.accessionmethod = none) :
    metaRowsFor (insert_artifacts db [a]).1 x =
      [{ id := x, title := none, culture := none, period := none,
         century := none, medium := none, dimensions := none,
         description := none, department := none, classification := none,
         accessionyear := a.accessionyear, accessionmethod := none }] := by
  have h1 : (insert_artifacts db [a]).1 = insertOne db a := rfl
  have heq : effectiveId db a = x := by simp [effectiveId, hid]
  rw [h1, metaRowsFor_insertOne, if_pos heq, heq]
  simp [metaRowOf, ht, hcu, hpe, hce, hme, hdi, hde, hdp, hcl, ham]

/-- C9 amended-claim witness at a concrete bare record. -/
theorem textual_fields_null_row_witness :
    metaRowsFor (insert_artifacts emptyDB [mkArt 7]).1 7 =
      [{ id := 7, title := none, culture := none, period := none,
         century := none, medium := none, dimensions := none,
         description := none, department := none, classification := none,
         accessionyear := (mkArt 7).accessionyear, accessionmethod := none }] :=
  textual_fields_null_row emptyDB (mkArt 7) 7 rfl rfl rfl rfl rfl rfl rfl rfl
    rfl rfl rfl

/-- C10: a record lacking all six numeric keys is stored with an
`artifact_media` row whose counters, rank and date bounds are all 0,
and the insertion succeeds (it counts as 1 inserted, no failure). -/
theorem numeric_defaulting_media_row (db : DB) (a : RawArtifact)
    (h1 : a.imagecount = none) (h2 : a.mediacount = none)
    (h3 : a.colorcount = none) (h4 : a.rank = none)
    (h5 : a.datebegin = none) (h6 : a.dateend = none) :
    (insert_artifacts db [a]).1.artifact_media =
      db.artifact_media ++
        [{ objectid := a.id, imagecount := 0, mediacount := 0,
           colorcount := 0, rank := 0, datebegin := 0, dateend := 0 }] ∧
    (insert_artifacts db [a]).2 = 1 := by
  constructor
  · have hs : (insert_artifacts db [a]).1 = insertOne db a := rfl
    rw [hs]
    simp [insertOne, mediaRowOf, h1, h2, h3, h4, h5, h6]
  · rfl

/-- C10 witness at a concrete record with no numeric keys. -/
theorem numeric_defaulting_media_row_witness :
    (insert_artifacts emptyDB [mkArt 3]).1.artifact_media =
      emptyDB.artifact_media ++
        [{ objectid := (mkArt 3).id, imagecount := 0, mediacount := 0,
           colorcount := 0, rank := 0, datebegin := 0, dateend := 0 }] ∧
    (insert_artifacts emptyDB [mkArt 3]).2 = 1 :=
  numeric_defaulting_media_row emptyDB (mkArt 3) rfl rfl rfl rfl rfl rfl

/-- C8: the generic query wrapper.  When the engine accepts the read
query it returns the result table unchanged — in particular an empty
table for a zero-row result, with no error reported; when the engine
rejects the query the wrapper catches the exception, reports the
descriptive message through its error channel and returns the empty
table.  The wrapper is a total function: it cannot crash or let an
exception escape. -/
theorem execute_query_total_behavior (engine : Except String Table) :
    (∀ rows : Table, engine = Except.ok rows →
      execute_query engine = { errors := [], table := rows }) ∧
    (∀ e : String, engine = Except.error e →
      execute_query engine =
        { errors := ["Query error: " ++ e], table := [] }) := by
  constructor
  · intro rows h
    rw [h]
    rfl
  · intro e h
    rw [h]
    rfl

/-- C8 witness: a zero-row success gives the empty table and no error;
a failing query gives the message and the empty table. -/
theorem execute_query_total_behavior_witness :
    execute_query (Except.ok ([] : Table)) = { errors := [], table := [] } ∧
    execute_query (Except.error "no such table: artifacts") =
      { errors := ["Query error: no such table: artifacts"], table := [] } :=
  ⟨(execute_query_total_behavior (Except.ok ([] : Table))).1 [] rfl,
   (execute_query_total_behavior (Except.error "no such table: artifacts")).2
     "no such table: artifacts" rfl⟩

/-- A run of non-empty pages contributes at least one record each. -/
theorem accBetween_length_ge (catalog : Nat → PageResponse) :
    ∀ (d p : Nat),
      (∀ i, i < d → ∃ r rs, catalog (p + i) = PageResponse.ok (r :: rs)) →
      d ≤ (accBetween catalog p d).length := by
  intro d
  induction d with
  | zero => intro p _; simp [accBetween]
  | succ d ih =>
      intro p hok
      obtain ⟨r, rs, hp⟩ := hok 0 (Nat.succ_pos d)
      have hp0 : catalog p = PageResponse.ok (r :: rs) := by
        simpa using hp
      have hrest : ∀ i, i < d →
          ∃ r rs, catalog ((p + 1) + i) = PageResponse.ok (r :: rs) := by
        intro i hi
        have := hok (i + 1) (by omega)
        rwa [show p + (i + 1) = (p + 1) + i from by omega] at this
      have := ih (p + 1) hrest
      simp only [accBetween, pageRecords, hp0, List.length_append,
        List.length_cons]
      omega

/-- Main loop invariant of `fetch_artifacts`: if the next `d` pages
are non-empty 200 responses, the page after them makes the loop break,
and the accumulator stays below the limit throughout, then the loop
returns the accumulator extended by those `d` pages and makes exactly
`d + 1` further requests. -/
theorem fetchLoop_run (catalog : Nat → PageResponse) (limit : Nat) :
    ∀ (d p : Nat) (acc : List RawArtifact) (reqs fuel : Nat),
      (∀ i, i < d → ∃ r rs, catalog (p + i) = PageResponse.ok (r :: rs)) →
      isTerminal (catalog (p + d)) →
      acc.length + (accBetween catalog p d).length < limit →
      d < fuel →
      fetchLoop catalog limit fuel acc p reqs =
        (acc ++ accBetween catalog p d, reqs + d + 1) := by
  intro d
  induction d with
  | zero =>
      intro p acc reqs fuel _ hterm hlen hfuel
      cases fuel with
      | zero => omega
      | succ f =>
          have hacc : ¬ limit ≤ acc.length := by
            simp [accBetween] at hlen
            omega
          simp only [fetchLoop, if_neg hacc]
          have hp0 : catalog (p + 0) = catalog p := by norm_num
          rw [hp0] at hterm
          cases hcp : catalog p with
          | ok records =>
              cases records with
              | nil => simp [accBetween]
              | cons r rs =>
                  rw [hcp] at hterm
                  exact absurd hterm (by simp [isTerminal])
          | httpError code => simp [accBetween]
          | malformed => simp [accBetween]
  | succ d ih =>
      intro p acc reqs fuel hok hterm hlen hfuel
      cases fuel with
      | zero => omega
      | succ f =>
          obtain ⟨r, rs, hp⟩ := hok 0 (Nat.succ_pos d)
          have hp0 : catalog p = PageResponse.ok (r :: rs) := by
            simpa using hp
          have hpage : pageRecords catalog p = r :: rs := by
            simp [pageRecords, hp0]
          have hsplit : accBetween catalog p (d + 1) =
              (r :: rs) ++ accBetween catalog (p + 1) d := by
            rw [accBetween, hpage]
          have hacc : ¬ limit ≤ acc.length := by
            rw [hsplit] at hlen
            simp at hlen
            omega
          simp only [fetchLoop, if_neg hacc]
          rw [hp0]
          have hok' : ∀ i, i < d →
              ∃ r rs, catalog ((p + 1) + i) = PageResponse.ok (r :: rs) := by
            intro i hi
            have := hok (i + 1) (by omega)
            rwa [show p + (i + 1) = (p + 1) + i from by omega] at this
          have hterm' : isTerminal (catalog ((p + 1) + d)) := by
            rwa [show (p + 1) + d = p + (d + 1) from by omega]
          have hlen' : (acc ++ r :: rs).length +
              (accBetween catalog (p + 1) d).length < limit := by
            rw [hsplit] at hlen
            simp at hlen ⊢
            omega
          have hstep := ih (p + 1) (acc ++ r :: rs) (reqs + 1) f
            hok' hterm' hlen' (by omega)
          show fetchLoop catalog limit f (acc ++ r :: rs) (p + 1) (reqs + 1) =
            (acc ++ accBetween catalog p (d + 1), reqs + (d + 1) + 1)
          rw [hstep, hsplit, List.append_assoc]
          refine congrArg _ ?_
          omega

/-- C6: whenever a page request fails — non-success HTTP status or an
exception while requesting or parsing the JSON body — after `d`
non-empty successful pages whose accumulated records are below the
limit, `fetch_artifacts` makes no further request after the failing
one (d + 1 requests in total) and returns exactly the records
accumulated from the earlier pages.  The function is total, so no
exception propagates to the caller. -/
theorem fetch_error_keeps_accumulated (catalog : Nat → PageResponse)
    (limit d : Nat)
    (hok : ∀ i, i < d → ∃ r rs, catalog (1 + i) = PageResponse.ok (r :: rs))
    (herr : (∃ c, catalog (1 + d) = PageResponse.httpError c) ∨
      catalog (1 + d) = PageResponse.malformed)
    (hlen : (accBetween catalog 1 d).length < limit) :
    fetch_artifacts catalog limit = (accBetween catalog 1 d, d + 1) := by
  have hterm : isTerminal (catalog (1 + d)) := by
    rcases herr with ⟨c, hc⟩ | hm
    · rw [hc]; trivial
    · rw [hm]; trivial
  have hd : d ≤ (accBetween catalog 1 d).length :=
    accBetween_length_ge catalog d 1 hok
  have hrun := fetchLoop_run catalog limit d 1 [] 0 (limit + 1)
    hok hterm (by simpa using hlen) (by omega)
  simp only [fetch_artifacts, hrun, List.nil_append]
  rw [List.take_of_length_le (Nat.le_of_lt hlen)]
  simp

/-- C6 witness: one good page then an HTTP 500 yields the single
accumulated record after exactly 2 requests. -/
theorem fetch_error_keeps_accumulated_witness :
    fetch_artifacts errCatalog 10 = ([sampleArt], 2) := by
  have h := fetch_error_keeps_accumulated errCatalog 10 1
    (by
      intro i hi
      have hi0 : i = 0 := by omega
      subst hi0
      exact ⟨sampleArt, [], rfl⟩)
    (Or.inl ⟨500, rfl⟩)
    (by decide)
  simpa [accBetween, pageRecords, errCatalog] using h

/-- C5 (amended): a non-empty short page does not by itself stop the
fetch.  If the first two pages are non-empty, the third page is
non-empty but shorter than the fixed page size 100, the fourth request
returns an empty records list, and the accumulated total is still
below the target, then `fetch_artifacts` stops after exactly 4 page
requests (not 3) and returns the records accumulated so far, even
though their number is below the requested target. -/
theorem fetch_stops_on_empty_page (catalog : Nat → PageResponse)
    (limit : Nat) (p1 p2 p3 : List RawArtifact)
    (h1 : catalog 1 = PageResponse.ok p1)
    (h2 : catalog 2 = PageResponse.ok p2)
    (h3 : catalog 3 = PageResponse.ok p3)
    (hne1 : p1 ≠ []) (hne2 : p2 ≠ []) (hne3 : p3 ≠ [])
    (_hshort : p3.length < 100)
    (h4 : catalog 4 = PageResponse.ok [])
    (hlen : p1.length + p2.length + p3.length < limit) :
    fetch_artifacts catalog limit = (p1 ++ p2 ++ p3, 4) := by
  have hacc : accBetween catalog 1 3 = p1 ++ (p2 ++ (p3 ++ [])) := by
    simp [accBetween, pageRecords]
    rw [h1, h2, h3]
  have hok : ∀ i, i < 3 → ∃ r rs, catalog (1 + i) = PageResponse.ok (r :: rs) := by
    intro i hi
    interval_cases i
    · cases p1 with
      | nil => exact absurd rfl hne1
      | cons r rs => exact ⟨r, rs, by simpa using h1⟩
    · cases p2 with
      | nil => exact absurd rfl hne2
      | cons r rs => exact ⟨r, rs, by simpa using h2⟩
    · cases p3 with
      | nil => exact absurd rfl hne3
      | cons r rs => exact ⟨r, rs, by simpa using h3⟩
  have hterm : isTerminal (catalog (1 + 3)) := by
    have h14 : (1 + 3 : Nat) = 4 := by norm_num
    rw [h14, h4]
    trivial
  have hlen3 : (accBetween catalog 1 3).length < limit := by
    rw [hacc]
    simp
    omega
  have hfuel : 3 < limit + 1 := by
    have := List.length_pos.mpr hne1
    have := List.length_pos.mpr hne2
    have := List.length_pos.mpr hne3
    omega
  have hrun := fetchLoop_run catalog limit 3 1 [] 0 (limit + 1)
    hok hterm (by simpa using hlen3) hfuel
  simp only [fetch_artifacts, hrun, List.nil_append]
  rw [List.take_of_length_le (Nat.le_of_lt hlen3), hacc]
  simp

set_option maxRecDepth 20000 in
/-- C5 amended-claim witness: the concrete simulated catalog (100,
100, 50, then empty) with target 2500 yields the 250 accumulated
records after exactly 4 page requests. -/
theorem fetch_stops_on_empty_page_witness :
    fetch_artifacts catalogShort 2500 =
      (List.replicate 100 sampleArt ++ List.replicate 100 sampleArt ++
        List.replicate 50 sampleArt, 4) :=
  fetch_stops_on_empty_page catalogShort 2500
    (List.replicate 100 sampleArt) (List.replicate 100 sampleArt)
    (List.replicate 50 sampleArt) rfl rfl rfl
    (by decide) (by decide) (by decide) (by decide) rfl (by decide)
